import Mathlib

/-!
Verification development for the `orange_avoider` module
(`sw/airborne/modules/orange_avoider/orange_avoider.c`).

Embedding conventions.

* Numbers.  Positions and headings are embedded as exact rationals `ℚ`.
  The spec (§1) treats the fixed-point/float conversion macros
  (`POS_BFP_OF_REAL`, `POS_FLOAT_OF_BFP`) as identity numeric conversions,
  so they disappear from the embedding.
* Square roots.  The C code computes `sqrt(e)` for a sum of squares `e`
  and only ever compares the result against a nonnegative constant `c`
  (`sqrt e < 1`, `sqrt e < 0.5`, `sqrt e >= 0`).  Over exact arithmetic
  `sqrt e < c ↔ e < c²` for `e, c ≥ 0`, so the embedding carries the
  squared quantity and compares it against the squared constant.
* NaN.  The C dedup check has the disjunct `obstacle_mse != obstacle_mse`,
  which detects an IEEE NaN.  Under exact rational arithmetic a value is
  always equal to itself, so the disjunct is kept verbatim in the
  embedding but can never fire.
* External collaborators.  `sin`, `cos` (libm), the `RadOfDeg` macro, the
  pose provider (`GetPosX`, `GetPosY`, `stateGetNedToBodyEulers_f()->psi`)
  and the external optimizer `optimize_trajectory` are not part of the
  module; they are passed in as parameters (`Env`, `Optimizer`).
* Module-header constants.  `OUTER_TRAJECTORY_LENGTH`,
  `INNER_TRAJECTORY_LENGTH`, `INNER_TRAJECTORY_SPACE` and
  `MAX_OBSTACLES_IN_MAP` are defined in a header that is not part of the
  sources; `OUTER_TRAJECTORY_LENGTH` is fixed by the spec (observed
  value 3), the others stay universally quantified parameters
  (`L`, `SPACE`, `cap`).
-/

namespace OrangeAvoider

/-- A 2-D world-frame position `(x, y)`; the `struct EnuCoor_i` of the C
code with the BFP conversions taken as identity. -/
structure Pos where
  x : ℚ
  y : ℚ
deriving DecidableEq

/-- The all-zero position; C globals start zero-initialized. -/
def pzero : Pos := ⟨0, 0⟩

/-- Squared Euclidean distance between two positions.  The C code computes
`sqrt(pow(error_x,2)+pow(error_y,2))`; see the header comment on square
roots. -/
def dist2 (a b : Pos) : ℚ := (a.x - b.x) ^ 2 + (a.y - b.y) ^ 2

/-- `checkObstaclePresence` (orange_avoider.c:318-334).  Walks the current
obstacle map and reports `true` as soon as some stored obstacle is within
Euclidean distance 1 of the candidate (`obstacle_mse < 1`, i.e. squared
distance `< 1`), or the distance computation is NaN
(`obstacle_mse != obstacle_mse`; never true over `ℚ`, kept verbatim).
The map is the first `n_obstacles` slots of the C array, embedded as a
list. -/
def checkObstaclePresence (map : List Pos) (p : Pos) : Bool :=
  map.any (fun o => decide (dist2 o p < 1) || decide (dist2 o p ≠ dist2 o p))

/-- The obstacle-map insertion operation: `checkObstaclePresence` followed
by the guarded append of `color_detection_cb` (orange_avoider.c:96-109,
`if (!obstacle_already_in && n_obstacles < MAX_OBSTACLES_IN_MAP)`); the
spec calls it `tryInsert`.  Appending to the list is the C code's
`n_obstacles += 1; obstacle_map[n_obstacles-1] = ...`. -/
def tryInsert (map : List Pos) (cap : ℕ) (p : Pos) : Bool × List Pos :=
  if !checkObstaclePresence map p && map.length < cap then
    (true, map ++ [p])
  else
    (false, map)

/-- One raw obstacle observation of `struct ObstacleMsg`
(fields as used at orange_avoider.c:84-95). -/
structure RawObstacle where
  distance : ℚ
  left_heading : ℚ
  right_heading : ℚ
deriving DecidableEq

/-- External collaborators read by the ingestion callback: the pose
provider (`GetPosX`, `GetPosY`, the body yaw `psi`) and the math-library
functions `sin`, `cos` and the `RadOfDeg` conversion macro, abstracted as
rational-valued functions. -/
structure Env where
  posX : ℚ
  posY : ℚ
  psi : ℚ
  sinq : ℚ → ℚ
  cosq : ℚ → ℚ
  radOfDeg : ℚ → ℚ

/-- The absolute world position computed at orange_avoider.c:93-95:
`heading = RadOfDeg((left+right)/2)`;
`x = GetPosX() + sin(heading + psi) * distance`;
`y = GetPosY() + cos(heading + psi) * distance`. -/
def obsPosition (env : Env) (o : RawObstacle) : Pos :=
  let heading := env.radOfDeg ((o.left_heading + o.right_heading) / 2)
  ⟨env.posX + env.sinq (heading + env.psi) * o.distance,
   env.posY + env.cosq (heading + env.psi) * o.distance⟩

/-- The obstacle-map part of the module state touched by the ingestion
callback: the map itself and the `obstacle_map_updated` dirty flag. -/
structure MapState where
  map : List Pos
  dirty : Bool
deriving DecidableEq

/-- One iteration of the loop of `color_detection_cb`
(orange_avoider.c:84-111) on a single observation: substitute 0.5 for a
zero distance (writing it back into the message, c:86-88), gate on
`obstacle_mse >= 0.0` (a square root of a sum of squares, embedded as the
squared quantity; always true over `ℚ`, kept verbatim), then try to
insert the computed absolute position, setting the dirty flag on success.
Returns the updated map state and the (possibly mutated) observation. -/
def processObs (env : Env) (cap : ℕ) (st : MapState) (o : RawObstacle) :
    MapState × RawObstacle :=
  let o' := if o.distance = 0 then { o with distance := 1/2 } else o
  if 0 ≤ o'.distance ^ 2 + o'.left_heading ^ 2 + o'.right_heading ^ 2 then
    let r := tryInsert st.map cap (obsPosition env o')
    (⟨r.2, st.dirty || r.1⟩, o')
  else
    (st, o')

/-- `color_detection_cb` (orange_avoider.c:80-112): folds `processObs`
over the batch of observations in the message (`for i < msg->size`),
returning the final map state and the mutated message. -/
def color_detection_cb (env : Env) (cap : ℕ) (st : MapState)
    (msg : List RawObstacle) : MapState × List RawObstacle :=
  msg.foldl
    (fun acc o =>
      let r := processObs env cap acc.1 o
      (r.1, acc.2 ++ [r.2]))
    (st, [])

/-- Modelled from the spec: `OUTER_TRAJECTORY_LENGTH` is defined in the
module header `orange_avoider.h`, which is absent from the sources; the
spec (§3) records its observed value 3 for the outer trajectory. -/
def OUTER_TRAJECTORY_LENGTH : ℕ := 3

/-- One entry of `struct TrajectoryList`: the inner-trajectory point array
(physically `INNER_TRAJECTORY_SPACE` slots, embedded as a list) and its
active-length field `size`. -/
structure Segment where
  pts : List Pos
  size : ℕ
deriving DecidableEq

/-- What `optimize_trajectory` hands back: a buffer of points (reads past
the reported size are unconstrained, hence a total function) together
with the size it wrote through the `uint8_t *size` out-parameter. -/
structure OptResult where
  buf : ℕ → Pos
  size : ℕ

/-- The external optimizer `optimize_trajectory(map, start, size, n)`:
obstacle map, seed trajectory, seed active size, obstacle count. -/
def Optimizer : Type :=
  List Pos → List Pos → ℕ → ℕ → OptResult

/-- `updateTrajectory` (orange_avoider.c:212-232).  Both call sites pass
the active segment `full_trajectory[subtraj_index]` as seed, and the
function writes its result back into that same segment, so it is embedded
as a transformation of the active segment: call the external optimizer,
copy its first `*size` points (with `*size` already updated by the
optimizer through the pointer), zero-fill the remaining slots up to
`INNER_TRAJECTORY_SPACE`, and return `true` unconditionally.  The
wall-clock timing instrumentation has no state effect and is dropped. -/
def updateTrajectory (opt : Optimizer) (SPACE : ℕ) (map : List Pos)
    (nObs : ℕ) (seg : Segment) : Segment × Bool :=
  let r := opt map seg.pts seg.size nObs
  (⟨(List.range SPACE).map (fun i => if i < r.size then r.buf i else pzero),
    r.size⟩,
   true)

/-- The x-coordinate list `rx_list` of `buildOuterTrajectory`
(orange_avoider.c:272): `{start_x, 2, 2}` (a 5-slot C array whose last
two zero slots are never read, since the loop stops at
`OUTER_TRAJECTORY_LENGTH`). -/
def rx_list (start_x : ℚ) : List ℚ := [start_x, 2, 2]

/-- The y-coordinate list `ry_list` of `buildOuterTrajectory`
(orange_avoider.c:273): `{start_y, 2, -2}`. -/
def ry_list (start_y : ℚ) : List ℚ := [start_y, 2, -2]

/-- `buildOuterTrajectory` (orange_avoider.c:263-283): point `i` of the
outer trajectory is `(rx_list[i], ry_list[i])`, where the first slot of
each list is the vehicle's current position. -/
def buildOuterTrajectory (start_x start_y : ℚ) : List Pos :=
  (List.range OUTER_TRAJECTORY_LENGTH).map
    (fun i => ⟨(rx_list start_x).getD i 0, (ry_list start_y).getD i 0⟩)

/-- The `actual_index` computation of `buildInnerTrajectory`
(orange_avoider.c:290-294): the far endpoint of segment `i` is
`i + 1`, except `0` at the last outer index. -/
def actualIndex (i : ℕ) : ℕ :=
  if i = OUTER_TRAJECTORY_LENGTH - 1 then 0 else i + 1

/-- Inner point `k` (0-indexed loop counter `i` of orange_avoider.c:303-310)
of the straight-line interpolation from `a` to `b`:
`(i+1) * increment + a`, with `increment = (b - a) / INNER_TRAJECTORY_LENGTH`. -/
def innerPoint (L : ℕ) (a b : Pos) (k : ℕ) : Pos :=
  ⟨(k + 1 : ℚ) * ((b.x - a.x) / L) + a.x,
   (k + 1 : ℚ) * ((b.y - a.y) / L) + a.y⟩

/-- `buildInnerTrajectory` (orange_avoider.c:288-313): overwrite the first
`INNER_TRAJECTORY_LENGTH` slots of segment `i`'s point array with the
straight-line interpolation from `outer_trajectory[i]` to
`outer_trajectory[actual_index]`, leaving the remaining physical slots as
they were. -/
def buildInnerTrajectory (L SPACE : ℕ) (outer : List Pos) (i : ℕ)
    (old : List Pos) : List Pos :=
  let a := outer.getD i pzero
  let b := outer.getD (actualIndex i) pzero
  (List.range SPACE).map
    (fun k => if k < L then innerPoint L a b k else old.getD k pzero)

/-- The initialization block of `orange_avoider_periodic`
(orange_avoider.c:139-155): set every segment's `size` to
`INNER_TRAJECTORY_LENGTH` and build every inner trajectory from the
freshly built outer trajectory.  Segment `i` keeps its old physical slots
beyond the first `L`. -/
def initFullTrajectory (L SPACE : ℕ) (outer : List Pos)
    (old : List Segment) : List Segment :=
  (List.range OUTER_TRAJECTORY_LENGTH).map
    (fun i =>
      ⟨buildInnerTrajectory L SPACE outer i
         ((old.getD i ⟨List.replicate SPACE pzero, 0⟩).pts),
       L⟩)

/-- The module's global mutable state (orange_avoider.c:52-65).
`mse_outer` / `mse_inner` carry the squared distances (see the header
comment on square roots); `wp_outer` / `wp_inner` are the positions of
the navigation waypoints `WP_OUTER` / `WP_INNER` held by the external
waypoint store and moved via `waypoint_move_xy_i`.  `n_obstacles` is the
length of `obstacle_map`. -/
structure OAState where
  mse_outer : ℚ
  mse_inner : ℚ
  outer_index : ℕ
  inner_index : ℕ
  subtraj_index : ℕ
  trajectory_updated : Bool
  obstacle_map : List Pos
  obstacle_map_updated : Bool
  initialized : Bool
  outer_trajectory : List Pos
  full_trajectory : List Segment
  wp_outer : Pos
  wp_inner : Pos
deriving DecidableEq

/-- `checkWaypointArrival` (orange_avoider.c:245-250): (squared) Euclidean
distance between the vehicle position and the target waypoint. -/
def checkWaypointArrival (env : Env) (wp : Pos) : ℚ :=
  (env.posX - wp.x) ^ 2 + (env.posY - wp.y) ^ 2

/-- The one-time setup branch of `orange_avoider_periodic`
(orange_avoider.c:139-155): on the first tick, build the outer trajectory
from the current position, build all inner trajectories, and set
`initialized`. -/
def initStep (L SPACE : ℕ) (env : Env) (s : OAState) : OAState :=
  if s.initialized = true then s
  else
    let outer := buildOuterTrajectory env.posX env.posY
    { s with
      outer_trajectory := outer,
      full_trajectory := initFullTrajectory L SPACE outer s.full_trajectory,
      initialized := true }

/-- The two `checkWaypointArrival` calls of the tick
(orange_avoider.c:158-159). -/
def arrivalStep (env : Env) (s : OAState) : OAState :=
  { s with
    mse_outer := checkWaypointArrival env s.wp_outer,
    mse_inner := checkWaypointArrival env s.wp_inner }

/-- The obstacle-map-dirty branch of the tick (orange_avoider.c:162-165):
rebuild the active segment (the boolean result is discarded) and clear
the flag. -/
def dirtyStep (opt : Optimizer) (SPACE : ℕ) (s : OAState) : OAState :=
  if s.obstacle_map_updated = true then
    let seg := s.full_trajectory.getD s.subtraj_index ⟨[], 0⟩
    let r := updateTrajectory opt SPACE s.obstacle_map s.obstacle_map.length seg
    { s with
      full_trajectory := s.full_trajectory.set s.subtraj_index r.1,
      obstacle_map_updated := false }
  else s

/-- The inner-waypoint branch of the tick (orange_avoider.c:167-178):
if `mse_inner < 0.5` (squared: `< 1/4`) and the trajectory is marked
updated, move `WP_INNER` to the current inner point of the active
segment, then advance `inner_index` if `inner_index < size - 1` (the
comparison is over `ℤ`: in C both `uint8_t` operands promote to `int`,
so `size = 0` yields `-1` and never an increment). -/
def innerStep (s : OAState) : OAState :=
  if s.mse_inner < 1/4 ∧ s.trajectory_updated = true then
    let seg := s.full_trajectory.getD s.subtraj_index ⟨[], 0⟩
    let s1 := { s with wp_inner := seg.pts.getD s.inner_index pzero }
    if (s1.inner_index : ℤ) < (seg.size : ℤ) - 1 then
      { s1 with inner_index := s1.inner_index + 1 }
    else s1
  else s

/-- The outer-waypoint branch of the tick (orange_avoider.c:180-202):
if `mse_outer < 0.5` (squared: `< 1/4`), advance `outer_index`
(incrementing below the last index, wrapping to 0 at it) with
`subtraj_index = outer_index - 1` after the increment and
`subtraj_index = OUTER_TRAJECTORY_LENGTH - 1` on wrap, reset
`inner_index`, move `WP_OUTER` to the new outer point, and rebuild the
newly active segment, storing the rebuild's boolean result in
`trajectory_updated`. -/
def outerStep (opt : Optimizer) (SPACE : ℕ) (s : OAState) : OAState :=
  if s.mse_outer < 1/4 then
    let s1 :=
      if s.outer_index < OUTER_TRAJECTORY_LENGTH - 1 then
        { s with
          outer_index := s.outer_index + 1,
          subtraj_index := s.outer_index + 1 - 1 }
      else
        { s with
          outer_index := 0,
          subtraj_index := OUTER_TRAJECTORY_LENGTH - 1 }
    let s2 :=
      { s1 with
        inner_index := 0,
        wp_outer := s1.outer_trajectory.getD s1.outer_index pzero }
    let seg := s2.full_trajectory.getD s2.subtraj_index ⟨[], 0⟩
    let r := updateTrajectory opt SPACE s2.obstacle_map s2.obstacle_map.length seg
    { s2 with
      full_trajectory := s2.full_trajectory.set s2.subtraj_index r.1,
      trajectory_updated := r.2 }
  else s

/-- `orange_avoider_periodic` (orange_avoider.c:131-207): one tick.  The
final `NavGotoWaypointHeading(WP_INNER)` commands the vehicle toward
`WP_INNER` and has no effect on the module state. -/
def orange_avoider_periodic (opt : Optimizer) (L SPACE : ℕ) (env : Env)
    (s : OAState) : OAState :=
  outerStep opt SPACE (innerStep (dirtyStep opt SPACE
    (arrivalStep env (initStep L SPACE env s))))

/-- An externally driven execution event: either an obstacle-detection
message delivered to the bound callback, or one periodic tick (each with
the pose/collaborators in effect at that moment). -/
inductive Event where
  | detect (env : Env) (msg : List RawObstacle)
  | tick (opt : Optimizer) (L SPACE : ℕ) (env : Env)

/-- Effect of one event on the module state.  The detection callback only
touches the obstacle map and its dirty flag. -/
def stepEvent (cap : ℕ) (s : OAState) : Event → OAState
  | Event.detect env msg =>
    let r := color_detection_cb env cap ⟨s.obstacle_map, s.obstacle_map_updated⟩ msg
    { s with obstacle_map := r.1.map, obstacle_map_updated := r.1.dirty }
  | Event.tick opt L SPACE env => orange_avoider_periodic opt L SPACE env s

/-- A whole session: fold the events over a starting state. -/
def run (cap : ℕ) (s : OAState) (es : List Event) : OAState :=
  es.foldl (stepEvent cap) s

/-- The state at program start: C globals are zero-initialized, the map is
empty, all flags false.  The initial positions of the externally owned
waypoints come from the flight plan; they are irrelevant to the
properties proved from this state and are taken as the origin. -/
def initialState (SPACE : ℕ) : OAState where
  mse_outer := 0
  mse_inner := 0
  outer_index := 0
  inner_index := 0
  subtraj_index := 0
  trajectory_updated := false
  obstacle_map := []
  obstacle_map_updated := false
  initialized := false
  outer_trajectory := List.replicate OUTER_TRAJECTORY_LENGTH pzero
  full_trajectory :=
    List.replicate OUTER_TRAJECTORY_LENGTH ⟨List.replicate SPACE pzero, 0⟩
  wp_outer := pzero
  wp_inner := pzero

/-! ## Basic lemmas about the obstacle map -/

theorem checkObstaclePresence_eq_true_iff (map : List Pos) (p : Pos) :
    checkObstaclePresence map p = true ↔
      ∃ o ∈ map, dist2 o p < 1 ∨ dist2 o p ≠ dist2 o p := by
  simp [checkObstaclePresence]

theorem tryInsert_length_le (map : List Pos) (cap : ℕ) (p : Pos)
    (h : map.length ≤ cap) : (tryInsert map cap p).2.length ≤ cap := by
  unfold tryInsert
  split
  · next hc =>
    simp only [Bool.and_eq_true, decide_eq_true_eq] at hc
    simp only [List.length_append, List.length_singleton]
    omega
  · exact h

theorem tryInsert_full (map : List Pos) (cap : ℕ) (p : Pos)
    (h : map.length = cap) : tryInsert map cap p = (false, map) := by
  unfold tryInsert
  rw [if_neg]
  simp [h]

/-- C1: for every position `p`, the insertion operation returns `false`
and leaves the map (hence `n_obstacles`, its length) unchanged when some
existing obstacle lies within Euclidean distance 1 of `p` or the distance
computation is NaN (the `dist2 o p ≠ dist2 o p` disjunct, never true over
exact arithmetic); otherwise, with the map below capacity, `p` is
appended (length grows by exactly 1); otherwise the map is full and the
operation fails with the map unchanged. -/
theorem tryInsert_spec (map : List Pos) (cap : ℕ) (p : Pos) :
    tryInsert map cap p =
      if ∃ o ∈ map, dist2 o p < 1 ∨ dist2 o p ≠ dist2 o p then
        (false, map)
      else if map.length < cap then
        (true, map ++ [p])
      else
        (false, map) := by
  by_cases h : ∃ o ∈ map, dist2 o p < 1 ∨ dist2 o p ≠ dist2 o p
  · rw [if_pos h]
    have hc : checkObstaclePresence map p = true :=
      (checkObstaclePresence_eq_true_iff map p).2 h
    unfold tryInsert
    simp [hc]
  · rw [if_neg h]
    have hc : checkObstaclePresence map p = false := by
      rw [Bool.eq_false_iff]
      intro hcc
      exact h ((checkObstaclePresence_eq_true_iff map p).1 hcc)
    by_cases hlen : map.length < cap <;> unfold tryInsert <;> simp [hc, hlen]

/-! ## The ingestion callback, observation by observation -/

theorem processObs_snd (env : Env) (cap : ℕ) (st : MapState)
    (o : RawObstacle) :
    (processObs env cap st o).2 =
      if o.distance = 0 then { o with distance := 1/2 } else o := by
  unfold processObs
  split <;> dsimp only <;> rw [if_pos (by positivity)]

theorem cb_foldl_snd (env : Env) (cap : ℕ) (msg : List RawObstacle) :
    ∀ (st : MapState) (acc : List RawObstacle),
      (msg.foldl
        (fun acc o =>
          let r := processObs env cap acc.1 o
          (r.1, acc.2 ++ [r.2]))
        (st, acc)).2 =
      acc ++ msg.map
        (fun o => if o.distance = 0 then { o with distance := 1/2 } else o) := by
  induction msg with
  | nil => intro st acc; simp
  | cons o rest ih =>
    intro st acc
    simp only [List.foldl_cons, List.map_cons]
    rw [ih]
    simp [processObs_snd]

/-- C10: the callback hands back the received message with every
observation whose `distance` field was exactly 0 mutated in place to
carry the substituted value 0.5, and with every other field (the two
headings, and the distance when it was nonzero) unchanged. -/
theorem cb_msg_mutation (env : Env) (cap : ℕ) (st : MapState)
    (msg : List RawObstacle) :
    (color_detection_cb env cap st msg).2 =
      msg.map
        (fun o => if o.distance = 0 then { o with distance := 1/2 } else o) := by
  unfold color_detection_cb
  rw [cb_foldl_snd]
  simp

/-! ## Frame lemmas for the state-machine steps -/

@[simp] theorem initStep_initialized (L SPACE : ℕ) (env : Env) (s : OAState) :
    (initStep L SPACE env s).initialized = true := by
  unfold initStep
  split
  · next h => exact h
  · rfl

@[simp] theorem initStep_obstacle_map (L SPACE : ℕ) (env : Env) (s : OAState) :
    (initStep L SPACE env s).obstacle_map = s.obstacle_map := by
  unfold initStep; split <;> rfl

@[simp] theorem initStep_obstacle_map_updated (L SPACE : ℕ) (env : Env)
    (s : OAState) :
    (initStep L SPACE env s).obstacle_map_updated = s.obstacle_map_updated := by
  unfold initStep; split <;> rfl

@[simp] theorem initStep_outer_index (L SPACE : ℕ) (env : Env) (s : OAState) :
    (initStep L SPACE env s).outer_index = s.outer_index := by
  unfold initStep; split <;> rfl

@[simp] theorem initStep_inner_index (L SPACE : ℕ) (env : Env) (s : OAState) :
    (initStep L SPACE env s).inner_index = s.inner_index := by
  unfold initStep; split <;> rfl

@[simp] theorem initStep_subtraj_index (L SPACE : ℕ) (env : Env) (s : OAState) :
    (initStep L SPACE env s).subtraj_index = s.subtraj_index := by
  unfold initStep; split <;> rfl

@[simp] theorem initStep_trajectory_updated (L SPACE : ℕ) (env : Env)
    (s : OAState) :
    (initStep L SPACE env s).trajectory_updated = s.trajectory_updated := by
  unfold initStep; split <;> rfl

@[simp] theorem initStep_wp_outer (L SPACE : ℕ) (env : Env) (s : OAState) :
    (initStep L SPACE env s).wp_outer = s.wp_outer := by
  unfold initStep; split <;> rfl

@[simp] theorem initStep_wp_inner (L SPACE : ℕ) (env : Env) (s : OAState) :
    (initStep L SPACE env s).wp_inner = s.wp_inner := by
  unfold initStep; split <;> rfl

theorem initStep_of_initialized (L SPACE : ℕ) (env : Env) (s : OAState)
    (h : s.initialized = true) : initStep L SPACE env s = s := by
  unfold initStep
  rw [if_pos h]

theorem initStep_of_not_initialized (L SPACE : ℕ) (env : Env) (s : OAState)
    (h : s.initialized = false) :
    initStep L SPACE env s =
      { s with
        outer_trajectory := buildOuterTrajectory env.posX env.posY,
        full_trajectory :=
          initFullTrajectory L SPACE (buildOuterTrajectory env.posX env.posY)
            s.full_trajectory,
        initialized := true } := by
  unfold initStep
  rw [if_neg (by simp [h])]

@[simp] theorem arrivalStep_obstacle_map (env : Env) (s : OAState) :
    (arrivalStep env s).obstacle_map = s.obstacle_map := rfl

@[simp] theorem arrivalStep_obstacle_map_updated (env : Env) (s : OAState) :
    (arrivalStep env s).obstacle_map_updated = s.obstacle_map_updated := rfl

@[simp] theorem arrivalStep_outer_index (env : Env) (s : OAState) :
    (arrivalStep env s).outer_index = s.outer_index := rfl

@[simp] theorem arrivalStep_inner_index (env : Env) (s : OAState) :
    (arrivalStep env s).inner_index = s.inner_index := rfl

@[simp] theorem arrivalStep_subtraj_index (env : Env) (s : OAState) :
    (arrivalStep env s).subtraj_index = s.subtraj_index := rfl

@[simp] theorem arrivalStep_trajectory_updated (env : Env) (s : OAState) :
    (arrivalStep env s).trajectory_updated = s.trajectory_updated := rfl

@[simp] theorem arrivalStep_initialized (env : Env) (s : OAState) :
    (arrivalStep env s).initialized = s.initialized := rfl

@[simp] theorem arrivalStep_outer_trajectory (env : Env) (s : OAState) :
    (arrivalStep env s).outer_trajectory = s.outer_trajectory := rfl

@[simp] theorem arrivalStep_full_trajectory (env : Env) (s : OAState) :
    (arrivalStep env s).full_trajectory = s.full_trajectory := rfl

@[simp] theorem arrivalStep_wp_outer (env : Env) (s : OAState) :
    (arrivalStep env s).wp_outer = s.wp_outer := rfl

@[simp] theorem arrivalStep_wp_inner (env : Env) (s : OAState) :
    (arrivalStep env s).wp_inner = s.wp_inner := rfl

@[simp] theorem arrivalStep_mse_outer (env : Env) (s : OAState) :
    (arrivalStep env s).mse_outer = checkWaypointArrival env s.wp_outer := rfl

@[simp] theorem arrivalStep_mse_inner (env : Env) (s : OAState) :
    (arrivalStep env s).mse_inner = checkWaypointArrival env s.wp_inner := rfl

@[simp] theorem dirtyStep_obstacle_map (opt : Optimizer) (SPACE : ℕ)
    (s : OAState) : (dirtyStep opt SPACE s).obstacle_map = s.obstacle_map := by
  unfold dirtyStep; split <;> rfl

@[simp] theorem dirtyStep_outer_index (opt : Optimizer) (SPACE : ℕ)
    (s : OAState) : (dirtyStep opt SPACE s).outer_index = s.outer_index := by
  unfold dirtyStep; split <;> rfl

@[simp] theorem dirtyStep_inner_index (opt : Optimizer) (SPACE : ℕ)
    (s : OAState) : (dirtyStep opt SPACE s).inner_index = s.inner_index := by
  unfold dirtyStep; split <;> rfl

@[simp] theorem dirtyStep_subtraj_index (opt : Optimizer) (SPACE : ℕ)
    (s : OAState) : (dirtyStep opt SPACE s).subtraj_index = s.subtraj_index := by
  unfold dirtyStep; split <;> rfl

@[simp] theorem dirtyStep_trajectory_updated (opt : Optimizer) (SPACE : ℕ)
    (s : OAState) :
    (dirtyStep opt SPACE s).trajectory_updated = s.trajectory_updated := by
  unfold dirtyStep; split <;> rfl

@[simp] theorem dirtyStep_initialized (opt : Optimizer) (SPACE : ℕ)
    (s : OAState) : (dirtyStep opt SPACE s).initialized = s.initialized := by
  unfold dirtyStep; split <;> rfl

@[simp] theorem dirtyStep_outer_trajectory (opt : Optimizer) (SPACE : ℕ)
    (s : OAState) :
    (dirtyStep opt SPACE s).outer_trajectory = s.outer_trajectory := by
  unfold dirtyStep; split <;> rfl

@[simp] theorem dirtyStep_wp_outer (opt : Optimizer) (SPACE : ℕ)
    (s : OAState) : (dirtyStep opt SPACE s).wp_outer = s.wp_outer := by
  unfold dirtyStep; split <;> rfl

@[simp] theorem dirtyStep_wp_inner (opt : Optimizer) (SPACE : ℕ)
    (s : OAState) : (dirtyStep opt SPACE s).wp_inner = s.wp_inner := by
  unfold dirtyStep; split <;> rfl

@[simp] theorem dirtyStep_mse_outer (opt : Optimizer) (SPACE : ℕ)
    (s : OAState) : (dirtyStep opt SPACE s).mse_outer = s.mse_outer := by
  unfold dirtyStep; split <;> rfl

@[simp] theorem dirtyStep_mse_inner (opt : Optimizer) (SPACE : ℕ)
    (s : OAState) : (dirtyStep opt SPACE s).mse_inner = s.mse_inner := by
  unfold dirtyStep; split <;> rfl

@[simp] theorem dirtyStep_full_trajectory_length (opt : Optimizer) (SPACE : ℕ)
    (s : OAState) :
    (dirtyStep opt SPACE s).full_trajectory.length =
      s.full_trajectory.length := by
  unfold dirtyStep
  split
  · simp
  · rfl

@[simp] theorem innerStep_obstacle_map (s : OAState) :
    (innerStep s).obstacle_map = s.obstacle_map := by
  unfold innerStep
  split
  · dsimp only; split <;> rfl
  · rfl

@[simp] theorem innerStep_obstacle_map_updated (s : OAState) :
    (innerStep s).obstacle_map_updated = s.obstacle_map_updated := by
  unfold innerStep
  split
  · dsimp only; split <;> rfl
  · rfl

@[simp] theorem innerStep_outer_index (s : OAState) :
    (innerStep s).outer_index = s.outer_index := by
  unfold innerStep
  split
  · dsimp only; split <;> rfl
  · rfl

@[simp] theorem innerStep_subtraj_index (s : OAState) :
    (innerStep s).subtraj_index = s.subtraj_index := by
  unfold innerStep
  split
  · dsimp only; split <;> rfl
  · rfl

@[simp] theorem innerStep_trajectory_updated (s : OAState) :
    (innerStep s).trajectory_updated = s.trajectory_updated := by
  unfold innerStep
  split
  · dsimp only; split <;> rfl
  · rfl

@[simp] theorem innerStep_initialized (s : OAState) :
    (innerStep s).initialized = s.initialized := by
  unfold innerStep
  split
  · dsimp only; split <;> rfl
  · rfl

@[simp] theorem innerStep_outer_trajectory (s : OAState) :
    (innerStep s).outer_trajectory = s.outer_trajectory := by
  unfold innerStep
  split
  · dsimp only; split <;> rfl
  · rfl

@[simp] theorem innerStep_full_trajectory (s : OAState) :
    (innerStep s).full_trajectory = s.full_trajectory := by
  unfold innerStep
  split
  · dsimp only; split <;> rfl
  · rfl

@[simp] theorem innerStep_wp_outer (s : OAState) :
    (innerStep s).wp_outer = s.wp_outer := by
  unfold innerStep
  split
  · dsimp only; split <;> rfl
  · rfl

@[simp] theorem innerStep_mse_outer (s : OAState) :
    (innerStep s).mse_outer = s.mse_outer := by
  unfold innerStep
  split
  · dsimp only; split <;> rfl
  · rfl

theorem innerStep_inner_index_le (s : OAState) :
    s.inner_index ≤ (innerStep s).inner_index := by
  unfold innerStep
  split
  · dsimp only
    split
    · exact Nat.le_succ _
    · exact Nat.le_refl _
  · exact Nat.le_refl _

theorem outerStep_of_not_arrived (opt : Optimizer) (SPACE : ℕ) (s : OAState)
    (h : ¬ s.mse_outer < 1/4) : outerStep opt SPACE s = s := by
  unfold outerStep
  rw [if_neg h]

@[simp] theorem outerStep_obstacle_map (opt : Optimizer) (SPACE : ℕ)
    (s : OAState) : (outerStep opt SPACE s).obstacle_map = s.obstacle_map := by
  unfold outerStep
  split
  · dsimp only; split <;> rfl
  · rfl

@[simp] theorem outerStep_obstacle_map_updated (opt : Optimizer) (SPACE : ℕ)
    (s : OAState) :
    (outerStep opt SPACE s).obstacle_map_updated = s.obstacle_map_updated := by
  unfold outerStep
  split
  · dsimp only; split <;> rfl
  · rfl

@[simp] theorem outerStep_initialized (opt : Optimizer) (SPACE : ℕ)
    (s : OAState) : (outerStep opt SPACE s).initialized = s.initialized := by
  unfold outerStep
  split
  · dsimp only; split <;> rfl
  · rfl

@[simp] theorem outerStep_outer_trajectory (opt : Optimizer) (SPACE : ℕ)
    (s : OAState) :
    (outerStep opt SPACE s).outer_trajectory = s.outer_trajectory := by
  unfold outerStep
  split
  · dsimp only; split <;> rfl
  · rfl

@[simp] theorem outerStep_wp_inner (opt : Optimizer) (SPACE : ℕ)
    (s : OAState) : (outerStep opt SPACE s).wp_inner = s.wp_inner := by
  unfold outerStep
  split
  · dsimp only; split <;> rfl
  · rfl

/-! ## Capacity invariant of the obstacle map -/

theorem processObs_map_length (env : Env) (cap : ℕ) (st : MapState)
    (o : RawObstacle) (h : st.map.length ≤ cap) :
    (processObs env cap st o).1.map.length ≤ cap := by
  unfold processObs
  split <;> dsimp only <;> rw [if_pos (by positivity)] <;>
    exact tryInsert_length_le _ _ _ h

theorem processObs_full (env : Env) (cap : ℕ) (st : MapState)
    (o : RawObstacle) (h : st.map.length = cap) :
    (processObs env cap st o).1 = st := by
  unfold processObs
  split <;> dsimp only <;> rw [if_pos (by positivity)] <;>
    rw [tryInsert_full _ _ _ h] <;> simp

theorem cb_foldl_map_length (env : Env) (cap : ℕ) (msg : List RawObstacle) :
    ∀ (st : MapState) (acc : List RawObstacle), st.map.length ≤ cap →
      ((msg.foldl
        (fun acc o =>
          let r := processObs env cap acc.1 o
          (r.1, acc.2 ++ [r.2]))
        (st, acc)).1).map.length ≤ cap := by
  induction msg with
  | nil => intro st acc h; exact h
  | cons o rest ih =>
    intro st acc h
    simp only [List.foldl_cons]
    exact ih _ _ (processObs_map_length env cap st o h)

theorem color_detection_cb_map_length (env : Env) (cap : ℕ) (st : MapState)
    (msg : List RawObstacle) (h : st.map.length ≤ cap) :
    (color_detection_cb env cap st msg).1.map.length ≤ cap :=
  cb_foldl_map_length env cap msg st [] h

theorem cb_foldl_full (env : Env) (cap : ℕ) (msg : List RawObstacle) :
    ∀ (st : MapState) (acc : List RawObstacle), st.map.length = cap →
      ((msg.foldl
        (fun acc o =>
          let r := processObs env cap acc.1 o
          (r.1, acc.2 ++ [r.2]))
        (st, acc)).1) = st := by
  induction msg with
  | nil => intro st acc _; rfl
  | cons o rest ih =>
    intro st acc h
    simp only [List.foldl_cons]
    rw [show (processObs env cap st o).1 = st from processObs_full env cap st o h]
    exact ih st _ h

theorem color_detection_cb_full (env : Env) (cap : ℕ) (st : MapState)
    (msg : List RawObstacle) (h : st.map.length = cap) :
    (color_detection_cb env cap st msg).1 = st :=
  cb_foldl_full env cap msg st [] h

theorem periodic_obstacle_map (opt : Optimizer) (L SPACE : ℕ) (env : Env)
    (s : OAState) :
    (orange_avoider_periodic opt L SPACE env s).obstacle_map =
      s.obstacle_map := by
  unfold orange_avoider_periodic
  simp

theorem stepEvent_map_length (cap : ℕ) (s : OAState) (e : Event)
    (h : s.obstacle_map.length ≤ cap) :
    (stepEvent cap s e).obstacle_map.length ≤ cap := by
  cases e with
  | detect env msg =>
    exact color_detection_cb_map_length env cap _ msg h
  | tick opt L SPACE env =>
    rw [show (stepEvent cap s (Event.tick opt L SPACE env)) =
          orange_avoider_periodic opt L SPACE env s from rfl,
        periodic_obstacle_map]
    exact h

theorem run_map_length (cap : ℕ) (es : List Event) :
    ∀ s : OAState, s.obstacle_map.length ≤ cap →
      (run cap s es).obstacle_map.length ≤ cap := by
  induction es with
  | nil => intro s h; exact h
  | cons e rest ih =>
    intro s h
    exact ih _ (stepEvent_map_length cap s e h)

/-- C4: starting from the zero-initialized state, after any sequence of
ingestion-callback deliveries and periodic ticks the obstacle count (the
map's length) never exceeds the capacity `MAX_OBSTACLES_IN_MAP`; and once
the map holds exactly `cap` obstacles, any further detection batch leaves
the map (and the dirty flag) unchanged — the next valid detection is
silently dropped. -/
theorem obstacle_map_capacity :
    (∀ (cap SPACE : ℕ) (es : List Event),
      (run cap (initialState SPACE) es).obstacle_map.length ≤ cap) ∧
    (∀ (cap : ℕ) (s : OAState) (env : Env) (msg : List RawObstacle),
      s.obstacle_map.length = cap →
        (stepEvent cap s (Event.detect env msg)).obstacle_map =
            s.obstacle_map ∧
          (stepEvent cap s (Event.detect env msg)).obstacle_map_updated =
            s.obstacle_map_updated) := by
  constructor
  · intro cap SPACE es
    exact run_map_length cap es _ (by simp [initialState])
  · intro cap s env msg h
    have hfull :
        (color_detection_cb env cap ⟨s.obstacle_map, s.obstacle_map_updated⟩
          msg).1 = ⟨s.obstacle_map, s.obstacle_map_updated⟩ :=
      color_detection_cb_full env cap _ msg h
    constructor
    · show (color_detection_cb env cap
          ⟨s.obstacle_map, s.obstacle_map_updated⟩ msg).1.map = s.obstacle_map
      rw [hfull]
    · show (color_detection_cb env cap
          ⟨s.obstacle_map, s.obstacle_map_updated⟩ msg).1.dirty =
        s.obstacle_map_updated
      rw [hfull]

/-! ## C5: the stored obstacle position -/

/-- The stored-position formula in the spec's own words (§4.2): substitute
0.5 for a zero distance, take the heading as the average of the two
reported headings converted to radians, and place the obstacle at
`vehicle position + distance · (sin(heading+yaw), cos(heading+yaw))`.
Named `spec…` because it follows the spec's wording; compared below with
the code's `obsPosition`. -/
def specObstaclePosition (env : Env) (o : RawObstacle) : Pos :=
  let d := if o.distance = 0 then (1 : ℚ)/2 else o.distance
  let heading := env.radOfDeg ((o.left_heading + o.right_heading) / 2)
  ⟨env.posX + d * env.sinq (heading + env.psi),
   env.posY + d * env.cosq (heading + env.psi)⟩

theorem tryInsert_cases (map : List Pos) (cap : ℕ) (p : Pos) :
    tryInsert map cap p = (true, map ++ [p]) ∨
      tryInsert map cap p = (false, map) := by
  unfold tryInsert
  split
  · left; rfl
  · right; rfl

/-- C5: every observation is processed with its zero distance replaced by
the default 0.5, and the candidate position handed to the map insertion —
hence the stored position whenever the map grows — is exactly the spec's
formula `specObstaclePosition`: vehicle position plus (substituted)
distance times `(sin(heading+yaw), cos(heading+yaw))` with the heading
the average of the two reported headings converted to radians. -/
theorem ingestion_position_formula (env : Env) (cap : ℕ) (st : MapState)
    (o : RawObstacle) :
    (processObs env cap st o).1.map =
        (tryInsert st.map cap (specObstaclePosition env o)).2 ∧
      ((processObs env cap st o).1.map ≠ st.map →
        (processObs env cap st o).1.map =
          st.map ++ [specObstaclePosition env o]) := by
  have hpos :
      obsPosition env
          (if o.distance = 0 then { o with distance := 1/2 } else o) =
        specObstaclePosition env o := by
    by_cases h : o.distance = 0 <;>
      simp [obsPosition, specObstaclePosition, h, mul_comm]
  have hmap : (processObs env cap st o).1.map =
      (tryInsert st.map cap (specObstaclePosition env o)).2 := by
    unfold processObs
    dsimp only
    rw [if_pos (by positivity), hpos]
  refine ⟨hmap, fun hne => ?_⟩
  rcases tryInsert_cases st.map cap (specObstaclePosition env o) with h | h
  · rw [hmap, h]
  · exact absurd (by rw [hmap, h]) hne

/-- Concrete environment for exercising theorems on closed inputs:
vehicle at the origin with zero yaw, `sin` read as the constant 1, `cos`
as the constant 0, degree-to-radian conversion as the identity. -/
def envW : Env := ⟨0, 0, 0, fun _ => 1, fun _ => 0, fun x => x⟩

theorem ingestion_position_formula_witness :
    (processObs envW 1 ⟨[], false⟩ ⟨0, 0, 0⟩).1.map =
      [] ++ [specObstaclePosition envW ⟨0, 0, 0⟩] := by
  refine (ingestion_position_formula envW 1 ⟨[], false⟩ ⟨0, 0, 0⟩).2 ?_
  rw [(ingestion_position_formula envW 1 ⟨[], false⟩ ⟨0, 0, 0⟩).1]
  simp [tryInsert, checkObstaclePresence]

/-- A state whose obstacle map is full at capacity 1. -/
def fullMapState : OAState := { initialState 2 with obstacle_map := [⟨5, 5⟩] }

theorem obstacle_map_capacity_witness :
    (run 1 (initialState 2)
        [Event.detect envW [⟨1, 0, 0⟩]]).obstacle_map.length ≤ 1 ∧
      (stepEvent 1 fullMapState
          (Event.detect envW [⟨1, 0, 0⟩])).obstacle_map =
        fullMapState.obstacle_map :=
  ⟨obstacle_map_capacity.1 1 2 [Event.detect envW [⟨1, 0, 0⟩]],
   (obstacle_map_capacity.2 1 fullMapState envW [⟨1, 0, 0⟩] rfl).1⟩

/-! ## C2: the rebuild operation -/

theorem getD_range_map {α : Type} (f : ℕ → α) (n i : ℕ) (h : i < n) (d : α) :
    ((List.range n).map f).getD i d = f i := by
  rw [List.getD_eq_getElem?_getD]
  simp [List.getElem?_range, h]

/-- C2: after the external optimizer returns its result (of size `S`, at
most the segment capacity), the rebuilt active segment records size `S`,
its first `S` points are exactly the optimizer's output, every point from
index `S` up to `INNER_TRAJECTORY_SPACE - 1` is exactly `(0, 0)`, and the
function returns `true`. -/
theorem updateTrajectory_spec (opt : Optimizer) (SPACE : ℕ) (map : List Pos)
    (nObs : ℕ) (seg : Segment)
    (hS : (opt map seg.pts seg.size nObs).size ≤ SPACE) :
    (updateTrajectory opt SPACE map nObs seg).2 = true ∧
      (updateTrajectory opt SPACE map nObs seg).1.size =
        (opt map seg.pts seg.size nObs).size ∧
      (updateTrajectory opt SPACE map nObs seg).1.pts.length = SPACE ∧
      (∀ i, i < (opt map seg.pts seg.size nObs).size →
        (updateTrajectory opt SPACE map nObs seg).1.pts.getD i pzero =
          (opt map seg.pts seg.size nObs).buf i) ∧
      (∀ i, (opt map seg.pts seg.size nObs).size ≤ i → i < SPACE →
        (updateTrajectory opt SPACE map nObs seg).1.pts.getD i pzero =
          pzero) := by
  refine ⟨rfl, rfl, by simp [updateTrajectory], ?_, ?_⟩
  · intro i hi
    show ((List.range SPACE).map _).getD i pzero = _
    rw [getD_range_map _ _ _ (lt_of_lt_of_le hi hS)]
    exact if_pos hi
  · intro i hi hiS
    show ((List.range SPACE).map _).getD i pzero = _
    rw [getD_range_map _ _ _ hiS]
    exact if_neg (by omega)

/-- A concrete optimizer that always returns the single point `(1, 1)`. -/
def optW : Optimizer := fun _ _ _ _ => ⟨fun _ => ⟨1, 1⟩, 1⟩

theorem updateTrajectory_spec_witness :
    (updateTrajectory optW 2 [] 0 ⟨[], 0⟩).2 = true ∧
      (updateTrajectory optW 2 [] 0 ⟨[], 0⟩).1.size = 1 ∧
      (updateTrajectory optW 2 [] 0 ⟨[], 0⟩).1.pts.getD 0 pzero = ⟨1, 1⟩ ∧
      (updateTrajectory optW 2 [] 0 ⟨[], 0⟩).1.pts.getD 1 pzero = pzero := by
  have h := updateTrajectory_spec optW 2 [] 0 ⟨[], 0⟩ (by decide)
  exact ⟨h.1, h.2.1, h.2.2.2.1 0 (by decide),
    h.2.2.2.2 1 (by decide) (by decide)⟩

/-! ## C6: the initial inner trajectories -/

theorem actualIndex_eq_mod (i : ℕ) (h : i < OUTER_TRAJECTORY_LENGTH) :
    actualIndex i = (i + 1) % OUTER_TRAJECTORY_LENGTH := by
  have h3 : i < 3 := h
  interval_cases i <;> decide

/-- C6: right after initialization (before any optimizer rebuild), the
inner trajectory of segment `i` has active size exactly
`INNER_TRAJECTORY_LENGTH`, and its point `k` (1-indexed, stored at slot
`k - 1`) equals `outer[i] + k·(outer[(i+1) mod N] - outer[i]) / innerLength`
— in particular every point lies on the straight line between the two
outer endpoints (at fraction `t = k / L` of the way), and the points are
evenly spaced. -/
theorem inner_trajectory_initial (L SPACE : ℕ) (outer : List Pos)
    (old : List Segment) (hL : 0 < L) (hLS : L ≤ SPACE)
    (i : ℕ) (hi : i < OUTER_TRAJECTORY_LENGTH)
    (k : ℕ) (hk1 : 1 ≤ k) (hkL : k ≤ L) :
    ((initFullTrajectory L SPACE outer old).getD i ⟨[], 0⟩).size = L ∧
      ((initFullTrajectory L SPACE outer old).getD i ⟨[], 0⟩).pts.getD
          (k - 1) pzero =
        ⟨(outer.getD i pzero).x +
            k * ((outer.getD ((i + 1) % OUTER_TRAJECTORY_LENGTH) pzero).x -
              (outer.getD i pzero).x) / L,
         (outer.getD i pzero).y +
            k * ((outer.getD ((i + 1) % OUTER_TRAJECTORY_LENGTH) pzero).y -
              (outer.getD i pzero).y) / L⟩ ∧
      (∃ t : ℚ, 0 ≤ t ∧ t ≤ 1 ∧
        ((initFullTrajectory L SPACE outer old).getD i ⟨[], 0⟩).pts.getD
            (k - 1) pzero =
          ⟨(outer.getD i pzero).x +
              t * ((outer.getD ((i + 1) % OUTER_TRAJECTORY_LENGTH) pzero).x -
                (outer.getD i pzero).x),
           (outer.getD i pzero).y +
              t * ((outer.getD ((i + 1) % OUTER_TRAJECTORY_LENGTH) pzero).y -
                (outer.getD i pzero).y)⟩) := by
  have hseg : (initFullTrajectory L SPACE outer old).getD i ⟨[], 0⟩ =
      ⟨buildInnerTrajectory L SPACE outer i
         ((old.getD i ⟨List.replicate SPACE pzero, 0⟩).pts), L⟩ :=
    getD_range_map _ _ _ hi _
  rw [hseg]
  have hk1' : k - 1 < L := by omega
  have hpt : (buildInnerTrajectory L SPACE outer i
        ((old.getD i ⟨List.replicate SPACE pzero, 0⟩).pts)).getD
          (k - 1) pzero =
      innerPoint L (outer.getD i pzero) (outer.getD (actualIndex i) pzero)
        (k - 1) := by
    unfold buildInnerTrajectory
    dsimp only
    rw [getD_range_map _ _ _ (by omega)]
    exact if_pos hk1'
  have hcast : ((k - 1 : ℕ) : ℚ) + 1 = (k : ℚ) := by
    rw [Nat.cast_sub hk1]
    ring
  have hformula :
      innerPoint L (outer.getD i pzero) (outer.getD (actualIndex i) pzero)
          (k - 1) =
        ⟨(outer.getD i pzero).x +
            k * ((outer.getD ((i + 1) % OUTER_TRAJECTORY_LENGTH) pzero).x -
              (outer.getD i pzero).x) / L,
         (outer.getD i pzero).y +
            k * ((outer.getD ((i + 1) % OUTER_TRAJECTORY_LENGTH) pzero).y -
              (outer.getD i pzero).y) / L⟩ := by
    rw [actualIndex_eq_mod i hi]
    unfold innerPoint
    rw [hcast]
    refine congrArg₂ Pos.mk ?_ ?_ <;> ring
  refine ⟨rfl, by rw [hpt, hformula], ?_⟩
  refine ⟨(k : ℚ) / L, by positivity, ?_, ?_⟩
  · rw [div_le_one (by exact_mod_cast hL)]
    exact_mod_cast hkL
  · rw [hpt, hformula]
    have hL0 : (L : ℚ) ≠ 0 := by
      exact_mod_cast Nat.pos_iff_ne_zero.mp hL
    refine congrArg₂ Pos.mk ?_ ?_ <;> field_simp

theorem inner_trajectory_initial_witness :
    ((initFullTrajectory 2 2 (buildOuterTrajectory 0 0) []).getD 0
        ⟨[], 0⟩).size = 2 ∧
      ((initFullTrajectory 2 2 (buildOuterTrajectory 0 0) []).getD 0
          ⟨[], 0⟩).pts.getD 0 pzero =
        ⟨((buildOuterTrajectory 0 0).getD 0 pzero).x +
            1 * (((buildOuterTrajectory 0 0).getD ((0 + 1) %
              OUTER_TRAJECTORY_LENGTH) pzero).x -
              ((buildOuterTrajectory 0 0).getD 0 pzero).x) / 2,
         ((buildOuterTrajectory 0 0).getD 0 pzero).y +
            1 * (((buildOuterTrajectory 0 0).getD ((0 + 1) %
              OUTER_TRAJECTORY_LENGTH) pzero).y -
              ((buildOuterTrajectory 0 0).getD 0 pzero).y) / 2⟩ ∧
      (∃ t : ℚ, 0 ≤ t ∧ t ≤ 1 ∧
        ((initFullTrajectory 2 2 (buildOuterTrajectory 0 0) []).getD 0
            ⟨[], 0⟩).pts.getD 0 pzero =
          ⟨((buildOuterTrajectory 0 0).getD 0 pzero).x +
              t * (((buildOuterTrajectory 0 0).getD ((0 + 1) %
                OUTER_TRAJECTORY_LENGTH) pzero).x -
                ((buildOuterTrajectory 0 0).getD 0 pzero).x),
           ((buildOuterTrajectory 0 0).getD 0 pzero).y +
              t * (((buildOuterTrajectory 0 0).getD ((0 + 1) %
                OUTER_TRAJECTORY_LENGTH) pzero).y -
                ((buildOuterTrajectory 0 0).getD 0 pzero).y)⟩) :=
  inner_trajectory_initial 2 2 (buildOuterTrajectory 0 0) []
    (by decide) (by decide) 0 (by decide) 1 (by decide) (by decide)

/-! ## C3: advancing the outer waypoint -/

theorem getD_set_eq {α : Type} (l : List α) (n : ℕ) (a d : α)
    (h : n < l.length) : (l.set n a).getD n d = a := by
  rw [List.getD_eq_getElem?_getD, List.getElem?_set_eq_of_lt a h]
  rfl

theorem outerStep_eq_of_lt (opt : Optimizer) (SPACE : ℕ) (s : OAState)
    (h1 : s.mse_outer < 1/4)
    (h2 : s.outer_index < OUTER_TRAJECTORY_LENGTH - 1) :
    outerStep opt SPACE s =
      { s with
        outer_index := s.outer_index + 1,
        subtraj_index := s.outer_index + 1 - 1,
        inner_index := 0,
        wp_outer := s.outer_trajectory.getD (s.outer_index + 1) pzero,
        full_trajectory :=
          s.full_trajectory.set (s.outer_index + 1 - 1)
            (updateTrajectory opt SPACE s.obstacle_map s.obstacle_map.length
              (s.full_trajectory.getD (s.outer_index + 1 - 1) ⟨[], 0⟩)).1,
        trajectory_updated :=
          (updateTrajectory opt SPACE s.obstacle_map s.obstacle_map.length
            (s.full_trajectory.getD (s.outer_index + 1 - 1) ⟨[], 0⟩)).2 } := by
  unfold outerStep
  rw [if_pos h1]
  dsimp only
  rw [if_pos h2]

theorem outerStep_eq_of_wrap (opt : Optimizer) (SPACE : ℕ) (s : OAState)
    (h1 : s.mse_outer < 1/4)
    (h2 : ¬ s.outer_index < OUTER_TRAJECTORY_LENGTH - 1) :
    outerStep opt SPACE s =
      { s with
        outer_index := 0,
        subtraj_index := OUTER_TRAJECTORY_LENGTH - 1,
        inner_index := 0,
        wp_outer := s.outer_trajectory.getD 0 pzero,
        full_trajectory :=
          s.full_trajectory.set (OUTER_TRAJECTORY_LENGTH - 1)
            (updateTrajectory opt SPACE s.obstacle_map s.obstacle_map.length
              (s.full_trajectory.getD (OUTER_TRAJECTORY_LENGTH - 1)
                ⟨[], 0⟩)).1,
        trajectory_updated :=
          (updateTrajectory opt SPACE s.obstacle_map s.obstacle_map.length
            (s.full_trajectory.getD (OUTER_TRAJECTORY_LENGTH - 1)
              ⟨[], 0⟩)).2 } := by
  unfold outerStep
  rw [if_pos h1]
  dsimp only
  rw [if_neg h2]

/-- C3: on a periodic tick (in the running state) on which the recomputed
`mse_outer` is below the arrival threshold: below the last outer index,
`outer_index` increments and `subtraj_index` becomes the new
`outer_index - 1`; at the last outer index, `outer_index` wraps to 0
while `subtraj_index` becomes `OUTER_TRAJECTORY_LENGTH - 1` (the last
segment, not segment 0); `inner_index` resets to 0; `WP_OUTER` is moved
to the new outer waypoint; and a fresh rebuild of the newly active
segment runs, its result stored there and its boolean result becoming
the new value of `trajectory_updated`. -/
theorem outer_advance_spec (opt : Optimizer) (L SPACE : ℕ) (env : Env)
    (s : OAState) (hinit : s.initialized = true)
    (hlen : s.full_trajectory.length = OUTER_TRAJECTORY_LENGTH)
    (harr : checkWaypointArrival env s.wp_outer < 1/4) :
    ((s.outer_index < OUTER_TRAJECTORY_LENGTH - 1 →
        (orange_avoider_periodic opt L SPACE env s).outer_index =
            s.outer_index + 1 ∧
          (orange_avoider_periodic opt L SPACE env s).subtraj_index =
            (orange_avoider_periodic opt L SPACE env s).outer_index - 1) ∧
      (s.outer_index = OUTER_TRAJECTORY_LENGTH - 1 →
        (orange_avoider_periodic opt L SPACE env s).outer_index = 0 ∧
          (orange_avoider_periodic opt L SPACE env s).subtraj_index =
            OUTER_TRAJECTORY_LENGTH - 1)) ∧
      (orange_avoider_periodic opt L SPACE env s).inner_index = 0 ∧
      (orange_avoider_periodic opt L SPACE env s).wp_outer =
        (orange_avoider_periodic opt L SPACE env s).outer_trajectory.getD
          (orange_avoider_periodic opt L SPACE env s).outer_index pzero ∧
      (∃ seg : Segment,
        (orange_avoider_periodic opt L SPACE env s).full_trajectory.getD
            (orange_avoider_periodic opt L SPACE env s).subtraj_index
            ⟨[], 0⟩ =
          (updateTrajectory opt SPACE s.obstacle_map
            s.obstacle_map.length seg).1 ∧
        (orange_avoider_periodic opt L SPACE env s).trajectory_updated =
          (updateTrajectory opt SPACE s.obstacle_map
            s.obstacle_map.length seg).2) := by
  have hper : orange_avoider_periodic opt L SPACE env s =
      outerStep opt SPACE (innerStep (dirtyStep opt SPACE
        (arrivalStep env s))) := by
    unfold orange_avoider_periodic
    rw [initStep_of_initialized L SPACE env s hinit]
  set sMid := innerStep (dirtyStep opt SPACE (arrivalStep env s)) with hsMid
  have hmse : sMid.mse_outer = checkWaypointArrival env s.wp_outer := by
    rw [hsMid, innerStep_mse_outer, dirtyStep_mse_outer, arrivalStep_mse_outer]
  have houter : sMid.outer_index = s.outer_index := by
    rw [hsMid, innerStep_outer_index, dirtyStep_outer_index,
      arrivalStep_outer_index]
  have hmap : sMid.obstacle_map = s.obstacle_map := by
    rw [hsMid, innerStep_obstacle_map, dirtyStep_obstacle_map,
      arrivalStep_obstacle_map]
  have htraj : sMid.outer_trajectory = s.outer_trajectory := by
    rw [hsMid, innerStep_outer_trajectory, dirtyStep_outer_trajectory,
      arrivalStep_outer_trajectory]
  have hflen : sMid.full_trajectory.length = OUTER_TRAJECTORY_LENGTH := by
    rw [hsMid, innerStep_full_trajectory, dirtyStep_full_trajectory_length,
      arrivalStep_full_trajectory, hlen]
  have h1 : sMid.mse_outer < 1/4 := by rw [hmse]; exact harr
  have hN : OUTER_TRAJECTORY_LENGTH = 3 := rfl
  by_cases h2 : s.outer_index < OUTER_TRAJECTORY_LENGTH - 1
  · have h2' : sMid.outer_index < OUTER_TRAJECTORY_LENGTH - 1 := by
      rw [houter]; exact h2
    rw [hper, outerStep_eq_of_lt opt SPACE sMid h1 h2']
    refine ⟨⟨fun _ => ⟨by simp [houter], by simp⟩,
      fun habs => (by rw [habs] at h2; exact absurd h2 (lt_irrefl _))⟩,
      rfl, by simp [htraj, houter], ?_⟩
    refine ⟨sMid.full_trajectory.getD (sMid.outer_index + 1 - 1) ⟨[], 0⟩,
      ?_, by simp [hmap]⟩
    show (sMid.full_trajectory.set (sMid.outer_index + 1 - 1) _).getD
        (sMid.outer_index + 1 - 1) ⟨[], 0⟩ = _
    rw [getD_set_eq _ _ _ _ (by omega), hmap]
  · have h2' : ¬ sMid.outer_index < OUTER_TRAJECTORY_LENGTH - 1 := by
      rw [houter]; exact h2
    rw [hper, outerStep_eq_of_wrap opt SPACE sMid h1 h2']
    refine ⟨⟨fun habs => absurd habs h2, fun _ => ⟨rfl, rfl⟩⟩,
      rfl, by simp [htraj], ?_⟩
    refine ⟨sMid.full_trajectory.getD (OUTER_TRAJECTORY_LENGTH - 1) ⟨[], 0⟩,
      ?_, by simp [hmap]⟩
    show (sMid.full_trajectory.set (OUTER_TRAJECTORY_LENGTH - 1) _).getD
        (OUTER_TRAJECTORY_LENGTH - 1) ⟨[], 0⟩ = _
    rw [getD_set_eq _ _ _ _ (by omega), hmap]

/-! ## Concrete states and environments for closed instances -/

/-- A concrete optimizer that always returns an empty (size-0) result. -/
def optEmpty : Optimizer := fun _ _ _ _ => ⟨fun _ => pzero, 0⟩

/-- Concrete environment: vehicle at the origin. -/
def cexEnvA : Env := ⟨0, 0, 0, fun _ => 0, fun _ => 0, fun x => x⟩

/-- Concrete environment: vehicle at (10, 10). -/
def cexEnvB : Env := ⟨10, 10, 0, fun _ => 0, fun _ => 0, fun x => x⟩

/-- A concrete running state: initialized, outer trajectory built from the
origin, all segments holding two zero points with active size 2,
`WP_OUTER` at the origin and `WP_INNER` far away at (10, 10). -/
def cexS0 : OAState where
  mse_outer := 0
  mse_inner := 0
  outer_index := 0
  inner_index := 0
  subtraj_index := 0
  trajectory_updated := false
  obstacle_map := []
  obstacle_map_updated := false
  initialized := true
  outer_trajectory := [⟨0, 0⟩, ⟨2, 2⟩, ⟨2, -2⟩]
  full_trajectory := List.replicate 3 ⟨List.replicate 2 pzero, 2⟩
  wp_outer := ⟨0, 0⟩
  wp_inner := ⟨10, 10⟩

theorem outer_advance_spec_witness :
    (orange_avoider_periodic optEmpty 2 2 cexEnvA cexS0).outer_index =
        cexS0.outer_index + 1 ∧
      (orange_avoider_periodic optEmpty 2 2 cexEnvA cexS0).inner_index = 0 := by
  have h := outer_advance_spec optEmpty 2 2 cexEnvA cexS0 rfl rfl
    (by norm_num [checkWaypointArrival, cexS0, cexEnvA])
  exact ⟨(h.1.1 (by decide)).1, h.2.1⟩

/-! ## C7: degenerate optimizer results -/

theorem getD_replicate_pzero (n i : ℕ) :
    (List.replicate n pzero).getD i pzero = pzero := by
  induction n generalizing i with
  | zero => simp
  | succ m ih => cases i <;> simp [List.replicate_succ, ih]

theorem dirtyStep_of_clean (opt : Optimizer) (SPACE : ℕ) (s : OAState)
    (h : s.obstacle_map_updated = false) : dirtyStep opt SPACE s = s := by
  unfold dirtyStep
  rw [if_neg (by simp [h])]

theorem innerStep_of_fire_noinc (s : OAState)
    (h1 : s.mse_inner < 1/4) (h2 : s.trajectory_updated = true)
    (h3 : ¬ ((s.inner_index : ℤ) <
      ((s.full_trajectory.getD s.subtraj_index ⟨[], 0⟩).size : ℤ) - 1)) :
    innerStep s =
      { s with wp_inner :=
          ((s.full_trajectory.getD s.subtraj_index ⟨[], 0⟩).pts.getD
            s.inner_index pzero) } := by
  unfold innerStep
  rw [if_pos ⟨h1, h2⟩]
  dsimp only
  rw [if_neg h3]

theorem outerStep_trajectory_updated_of_true (opt : Optimizer) (SPACE : ℕ)
    (s : OAState) (h : s.trajectory_updated = true) :
    (outerStep opt SPACE s).trajectory_updated = true := by
  unfold outerStep
  split
  · dsimp only
    split <;> rfl
  · exact h

/-- C7 (amended): a degenerate (size-0) optimizer result is accepted
as-is — the rebuilt active segment has active size 0 with every physical
slot zeroed — but the rebuild returns `true` rather than signalling "not
ready" through `trajectory_updated`; consequently, on a periodic tick
with `mse_inner < 0.5`, a running state whose active segment is that
empty all-zero segment and whose `trajectory_updated` flag is set still
moves `WP_INNER` to the zero point (slot 0 of the empty segment) and
keeps `trajectory_updated` true: the vehicle IS commanded toward an
inner waypoint of the empty segment. -/
theorem degenerate_result_accepted (opt : Optimizer) (SPACE : ℕ)
    (map : List Pos) (nObs : ℕ) (seg : Segment)
    (hdeg : (opt map seg.pts seg.size nObs).size = 0)
    (L : ℕ) (env : Env) (s : OAState)
    (hinit : s.initialized = true)
    (hclean : s.obstacle_map_updated = false)
    (htu : s.trajectory_updated = true)
    (hseg : s.full_trajectory.getD s.subtraj_index ⟨[], 0⟩ =
      ⟨List.replicate SPACE pzero, 0⟩)
    (hmi : checkWaypointArrival env s.wp_inner < 1/4) :
    updateTrajectory opt SPACE map nObs seg =
        (⟨List.replicate SPACE pzero, 0⟩, true) ∧
      (orange_avoider_periodic opt L SPACE env s).wp_inner = pzero ∧
      (orange_avoider_periodic opt L SPACE env s).trajectory_updated =
        true := by
  have harr1 : (arrivalStep env s).mse_inner < 1/4 := by
    rw [arrivalStep_mse_inner]; exact hmi
  have harr2 : (arrivalStep env s).trajectory_updated = true := by
    rw [arrivalStep_trajectory_updated]; exact htu
  have hsegA : (arrivalStep env s).full_trajectory.getD
      (arrivalStep env s).subtraj_index ⟨[], 0⟩ =
      ⟨List.replicate SPACE pzero, 0⟩ := by
    rw [arrivalStep_full_trajectory, arrivalStep_subtraj_index]; exact hseg
  have h3 : ¬ (((arrivalStep env s).inner_index : ℤ) <
      (((arrivalStep env s).full_trajectory.getD
        (arrivalStep env s).subtraj_index ⟨[], 0⟩).size : ℤ) - 1) := by
    rw [hsegA]
    show ¬ (((arrivalStep env s).inner_index : ℤ) < (0 : ℕ) - 1)
    push_cast
    omega
  have hper : orange_avoider_periodic opt L SPACE env s =
      outerStep opt SPACE (innerStep (arrivalStep env s)) := by
    unfold orange_avoider_periodic
    rw [initStep_of_initialized L SPACE env s hinit,
      dirtyStep_of_clean opt SPACE _
        (by rw [arrivalStep_obstacle_map_updated]; exact hclean)]
  have hwp : ((arrivalStep env s).full_trajectory.getD
        (arrivalStep env s).subtraj_index ⟨[], 0⟩).pts.getD
      (arrivalStep env s).inner_index pzero = pzero := by
    rw [hsegA]
    exact getD_replicate_pzero SPACE _
  have hinner : innerStep (arrivalStep env s) =
      { arrivalStep env s with wp_inner := pzero } := by
    rw [innerStep_of_fire_noinc _ harr1 harr2 h3]
    dsimp only
    rw [hwp]
  refine ⟨?_, ?_, ?_⟩
  · unfold updateTrajectory
    dsimp only
    rw [hdeg]
    refine congrArg₂ Prod.mk (congrArg₂ Segment.mk ?_ rfl) rfl
    simp
  · rw [hper, outerStep_wp_inner, hinner]
  · rw [hper]
    apply outerStep_trajectory_updated_of_true
    rw [hinner]
    exact harr2

/-- A running state whose active segment is the empty (size-0, all-zero)
segment and whose trajectory-updated flag is set. -/
def cexSEmpty : OAState :=
  { cexS0 with
    trajectory_updated := true,
    full_trajectory := List.replicate 3 ⟨List.replicate 2 pzero, 0⟩ }

theorem degenerate_result_accepted_witness :
    updateTrajectory optEmpty 2 [] 0 ⟨[], 0⟩ =
        (⟨List.replicate 2 pzero, 0⟩, true) ∧
      (orange_avoider_periodic optEmpty 2 2 cexEnvB cexSEmpty).wp_inner =
        pzero ∧
      (orange_avoider_periodic optEmpty 2 2 cexEnvB
          cexSEmpty).trajectory_updated = true :=
  degenerate_result_accepted optEmpty 2 [] 0 ⟨[], 0⟩ rfl 2 cexEnvB cexSEmpty
    rfl rfl rfl rfl
    (by norm_num [checkWaypointArrival, cexEnvB, cexSEmpty, cexS0])

/-- C7 counterexample: an outer-advance rebuild whose optimizer returns
an empty result leaves `trajectory_updated = true` (not "not ready") and
an active segment of size 0; on the following tick with
`mse_inner < 0.5` the vehicle is commanded toward slot 0 (the zero
point) of that empty segment — contradicting the claim that the
`trajectory_updated` flag prevents this. -/
theorem empty_result_not_ready_cex :
    (orange_avoider_periodic optEmpty 2 2 cexEnvA cexS0).trajectory_updated =
        true ∧
      ((orange_avoider_periodic optEmpty 2 2 cexEnvA
            cexS0).full_trajectory.getD
          (orange_avoider_periodic optEmpty 2 2 cexEnvA cexS0).subtraj_index
          ⟨[], 0⟩).size = 0 ∧
      (orange_avoider_periodic optEmpty 2 2 cexEnvB
          (orange_avoider_periodic optEmpty 2 2 cexEnvA cexS0)).wp_inner =
        pzero := by
  refine ⟨?_, ?_, ?_⟩ <;>
    norm_num [orange_avoider_periodic, initStep, arrivalStep, dirtyStep,
      innerStep, outerStep, updateTrajectory, checkWaypointArrival, optEmpty,
      cexS0, cexEnvA, cexEnvB, pzero, OUTER_TRAJECTORY_LENGTH,
      List.range_succ]

/-! ## C8: monotonicity of the progress indices -/

/-- C8 (amended): while running, the indices never decrease except for
the two documented resets of the outer-arrival branch: when `mse_outer`
is below the threshold, `outer_index` wraps to 0 from the last index and
`inner_index` is reset to 0; in every other situation both indices stay
or grow. -/
theorem indices_never_decrease_except_wrap (opt : Optimizer) (L SPACE : ℕ)
    (env : Env) (s : OAState) (hinit : s.initialized = true) :
    (s.outer_index ≤
        (orange_avoider_periodic opt L SPACE env s).outer_index ∨
      (checkWaypointArrival env s.wp_outer < 1/4 ∧
        ¬ s.outer_index < OUTER_TRAJECTORY_LENGTH - 1 ∧
        (orange_avoider_periodic opt L SPACE env s).outer_index = 0)) ∧
    (s.inner_index ≤
        (orange_avoider_periodic opt L SPACE env s).inner_index ∨
      (checkWaypointArrival env s.wp_outer < 1/4 ∧
        (orange_avoider_periodic opt L SPACE env s).inner_index = 0)) := by
  have hper : orange_avoider_periodic opt L SPACE env s =
      outerStep opt SPACE (innerStep (dirtyStep opt SPACE
        (arrivalStep env s))) := by
    unfold orange_avoider_periodic
    rw [initStep_of_initialized L SPACE env s hinit]
  set sMid := innerStep (dirtyStep opt SPACE (arrivalStep env s)) with hsMid
  have hmse : sMid.mse_outer = checkWaypointArrival env s.wp_outer := by
    rw [hsMid, innerStep_mse_outer, dirtyStep_mse_outer, arrivalStep_mse_outer]
  have houter : sMid.outer_index = s.outer_index := by
    rw [hsMid, innerStep_outer_index, dirtyStep_outer_index,
      arrivalStep_outer_index]
  have hinner_le : s.inner_index ≤ sMid.inner_index := by
    rw [hsMid]
    have h := innerStep_inner_index_le (dirtyStep opt SPACE (arrivalStep env s))
    rw [dirtyStep_inner_index, arrivalStep_inner_index] at h
    exact h
  by_cases hmo : checkWaypointArrival env s.wp_outer < 1/4
  · by_cases h2 : s.outer_index < OUTER_TRAJECTORY_LENGTH - 1
    · rw [hper, outerStep_eq_of_lt opt SPACE sMid (by rw [hmse]; exact hmo)
        (by rw [houter]; exact h2)]
      exact ⟨Or.inl (by simp [houter]), Or.inr ⟨hmo, rfl⟩⟩
    · rw [hper, outerStep_eq_of_wrap opt SPACE sMid (by rw [hmse]; exact hmo)
        (by rw [houter]; exact h2)]
      exact ⟨Or.inr ⟨hmo, h2, rfl⟩, Or.inr ⟨hmo, rfl⟩⟩
  · rw [hper, outerStep_of_not_arrived opt SPACE sMid (by rw [hmse]; exact hmo)]
    exact ⟨Or.inl (le_of_eq houter.symm), Or.inl hinner_le⟩

theorem indices_never_decrease_except_wrap_witness :
    (cexS0.outer_index ≤
        (orange_avoider_periodic optEmpty 2 2 cexEnvB cexS0).outer_index ∨
      (checkWaypointArrival cexEnvB cexS0.wp_outer < 1/4 ∧
        ¬ cexS0.outer_index < OUTER_TRAJECTORY_LENGTH - 1 ∧
        (orange_avoider_periodic optEmpty 2 2 cexEnvB cexS0).outer_index =
          0)) ∧
    (cexS0.inner_index ≤
        (orange_avoider_periodic optEmpty 2 2 cexEnvB cexS0).inner_index ∨
      (checkWaypointArrival cexEnvB cexS0.wp_outer < 1/4 ∧
        (orange_avoider_periodic optEmpty 2 2 cexEnvB cexS0).inner_index =
          0)) :=
  indices_never_decrease_except_wrap optEmpty 2 2 cexEnvB cexS0 rfl

/-- A running state at the last outer index with a nonzero inner index. -/
def cexS8 : OAState :=
  { cexS0 with outer_index := 2, inner_index := 3, subtraj_index := 1 }

/-- C8 counterexample: a tick observed at the last outer index with
`mse_outer < 0.5` decrements both indices — `outer_index` wraps from 2
to 0 and `inner_index` resets from 3 to 0 — so the state machine does
decrement `outer_index` and `inner_index`. -/
theorem state_machine_decrements_cex :
    (orange_avoider_periodic optEmpty 2 2 cexEnvA cexS8).outer_index <
        cexS8.outer_index ∧
      (orange_avoider_periodic optEmpty 2 2 cexEnvA cexS8).inner_index <
        cexS8.inner_index := by
  refine ⟨?_, ?_⟩ <;>
    norm_num [orange_avoider_periodic, initStep, arrivalStep, dirtyStep,
      innerStep, outerStep, updateTrajectory, checkWaypointArrival, optEmpty,
      cexS8, cexS0, cexEnvA, pzero, OUTER_TRAJECTORY_LENGTH, List.range_succ]

/-! ## C9: the outer trajectory build -/

/-- C9 (amended): the outer trajectory is built exactly once per session,
on the first periodic tick, after which `initialized` becomes and stays
true: a tick from an uninitialized state builds it with the vehicle's
current position as first point and the remaining points taken from the
fixed hardcoded list of absolute area-corner coordinates (2,2), (2,-2) —
not offsets relative to the start position — and construction always
succeeds; every later tick and every detection callback leave
`initialized` and the outer trajectory unchanged. -/
theorem outer_trajectory_once :
    (∀ start_x start_y : ℚ,
      buildOuterTrajectory start_x start_y =
        [⟨start_x, start_y⟩, ⟨2, 2⟩, ⟨2, -2⟩]) ∧
    (∀ (opt : Optimizer) (L SPACE : ℕ) (env : Env) (s : OAState),
      s.initialized = false →
        (orange_avoider_periodic opt L SPACE env s).initialized = true ∧
        (orange_avoider_periodic opt L SPACE env s).outer_trajectory =
          buildOuterTrajectory env.posX env.posY) ∧
    (∀ (opt : Optimizer) (L SPACE : ℕ) (env : Env) (s : OAState),
      s.initialized = true →
        (orange_avoider_periodic opt L SPACE env s).initialized = true ∧
        (orange_avoider_periodic opt L SPACE env s).outer_trajectory =
          s.outer_trajectory) ∧
    (∀ (cap : ℕ) (env : Env) (msg : List RawObstacle) (s : OAState),
      (stepEvent cap s (Event.detect env msg)).initialized = s.initialized ∧
      (stepEvent cap s (Event.detect env msg)).outer_trajectory =
        s.outer_trajectory) := by
  refine ⟨fun start_x start_y => rfl, ?_, ?_, fun cap env msg s => ⟨rfl, rfl⟩⟩
  · intro opt L SPACE env s h
    constructor
    · unfold orange_avoider_periodic
      simp
    · unfold orange_avoider_periodic
      simp only [outerStep_outer_trajectory, innerStep_outer_trajectory,
        dirtyStep_outer_trajectory, arrivalStep_outer_trajectory]
      rw [initStep_of_not_initialized L SPACE env s h]
  · intro opt L SPACE env s h
    constructor
    · unfold orange_avoider_periodic
      simp
    · unfold orange_avoider_periodic
      simp only [outerStep_outer_trajectory, innerStep_outer_trajectory,
        dirtyStep_outer_trajectory, arrivalStep_outer_trajectory]
      rw [initStep_of_initialized L SPACE env s h]

theorem outer_trajectory_once_witness :
    buildOuterTrajectory 0 0 = [⟨0, 0⟩, ⟨2, 2⟩, ⟨2, -2⟩] ∧
      (orange_avoider_periodic optEmpty 2 2 cexEnvA
          (initialState 2)).initialized = true ∧
      (orange_avoider_periodic optEmpty 2 2 cexEnvA
          (initialState 2)).outer_trajectory =
        buildOuterTrajectory cexEnvA.posX cexEnvA.posY ∧
      (orange_avoider_periodic optEmpty 2 2 cexEnvA cexS0).outer_trajectory =
        cexS0.outer_trajectory ∧
      (stepEvent 1 cexS0 (Event.detect cexEnvA [])).initialized =
        cexS0.initialized :=
  ⟨outer_trajectory_once.1 0 0,
   (outer_trajectory_once.2.1 optEmpty 2 2 cexEnvA (initialState 2) rfl).1,
   (outer_trajectory_once.2.1 optEmpty 2 2 cexEnvA (initialState 2) rfl).2,
   (outer_trajectory_once.2.2.1 optEmpty 2 2 cexEnvA cexS0 rfl).2,
   (outer_trajectory_once.2.2.2 1 cexEnvA [] cexS0).1⟩

/-- C9 counterexample: the subsequent outer points are fixed absolute
hardcoded coordinates, not relative offsets from the start position: two
sessions started at (0,0) and at (1,1) both produce (2,2) as the second
outer point, so its offset from the start (2 versus 1 in x) is not any
fixed value. -/
theorem outer_points_not_relative_cex :
    (buildOuterTrajectory 0 0).getD 1 pzero = ⟨2, 2⟩ ∧
      (buildOuterTrajectory 1 1).getD 1 pzero = ⟨2, 2⟩ ∧
      ((buildOuterTrajectory 1 1).getD 1 pzero).x - 1 ≠
        ((buildOuterTrajectory 0 0).getD 1 pzero).x - 0 := by
  have e1 : ((buildOuterTrajectory 1 1).getD 1 pzero).x = 2 := rfl
  have e0 : ((buildOuterTrajectory 0 0).getD 1 pzero).x = 2 := rfl
  refine ⟨rfl, rfl, ?_⟩
  rw [e1, e0]
  norm_num

end OrangeAvoider
